import Mathlib

/-!
Verification of the sequential tool-calling orchestration engine of the
course-materials assistant.

The orchestrator (`AIGenerator` in `backend/ai_generator.py`) is embedded
shallowly: the Anthropic client is abstracted as a function from the call
index (0-based, counting the calls the orchestrator makes during one
`generate_response` invocation) to either a response or a raised exception
message; the tool manager's `execute_tool` is abstracted as a function from
tool name and keyword arguments to either a result string or a raised
exception message.  The orchestrator itself is translated faithfully,
returning — besides the result string — a trace of events: one event per
model call (recording whether a `tools` parameter was passed, the system
string and the message list) and one event per tool-dispatch batch
(recording the dispatched tool invocations in order).
-/

/-- Keyword arguments of a tool call (`**content_block.input`), as an
association list. -/
abbrev ToolInput := List (String × String)

/-- A content block of a model response.  Mirrors the duck-typed Anthropic
content block: `type` is `"text"` or `"tool_use"`; `text` is meaningful for
text blocks, `name`/`input`/`id` for tool-use blocks. -/
structure ContentBlock where
  type : String
  text : String
  name : String
  input : ToolInput
  id : String
deriving Repr, DecidableEq

/-- A text content block. -/
def ContentBlock.mkText (s : String) : ContentBlock :=
  ⟨"text", s, "", [], ""⟩

/-- A tool-use content block. -/
def ContentBlock.mkToolUse (name : String) (input : ToolInput) (id : String) : ContentBlock :=
  ⟨"tool_use", "", name, input, id⟩

/-- One entry of a batched tool-result message, mirroring the dict
`\x7b"type": "tool_result", "tool_use_id": ..., "content": ...\x7d` built in
`_execute_tools_only`. -/
structure ToolResultEntry where
  type : String
  tool_use_id : String
  content : String
deriving Repr, DecidableEq

/-- The `content` field of a conversation message: a plain string, the
assistant's content blocks, or a batched list of tool results. -/
inductive MsgContent where
  | text (s : String)
  | blocks (bs : List ContentBlock)
  | results (rs : List ToolResultEntry)
deriving Repr, DecidableEq

/-- A conversation message (`\x7b"role": ..., "content": ...\x7d`). -/
structure Message where
  role : String
  content : MsgContent
deriving Repr, DecidableEq

/-- A model response: `stop_reason` and the ordered content blocks. -/
structure ModelResponse where
  stop_reason : String
  content : List ContentBlock
deriving Repr, DecidableEq

/-- Outcome of one call to `self.client.messages.create`: a response, or a
raised exception carrying its message. -/
inductive CallResult where
  | ok (r : ModelResponse)
  | exn (msg : String)
deriving Repr, DecidableEq

/-- The abstracted Anthropic client: the outcome of the n-th (0-based) call
the orchestrator makes during one `generate_response` invocation. -/
abbrev Client := Nat → CallResult

/-- The abstracted `tool_manager.execute_tool`: result string, or a raised
exception message. -/
abbrev ToolExec := String → ToolInput → Except String String

/-- Trace events of one `generate_response` invocation: a model call
(recording whether tool definitions were passed, the system string and the
messages), or a tool-dispatch batch (one `_execute_tools_only` invocation,
recording the dispatched `(name, input)` pairs in order). -/
inductive Event where
  | modelCall (withTools : Bool) (system : String) (messages : List Message)
  | toolBatch (calls : List (String × ToolInput))
deriving Repr, DecidableEq

/-- The static system prompt (`AIGenerator.SYSTEM_PROMPT`, lines 21-66). -/
def SYSTEM_PROMPT : String :=
  " You are an AI assistant specialized in course materials and educational content with access to comprehensive tools for course information.\n\nSEQUENTIAL REASONING MODE:\n- You can use tools up to 2 times across separate reasoning rounds\n- After receiving tool results, analyze if additional information would improve your answer\n- Use sequential strategy for: course comparisons, multi-part questions, outline→content searches\n\nAvailable Tools:\n1. **Course Content Search**: Use for questions about specific course content or detailed educational materials\n2. **Course Outline**: Use for questions about course structure, lesson lists, or complete course overviews\n\nTool Usage Guidelines:\n- **Content search**: For specific content, concepts, or lesson details within courses\n- **Course outline**: For course structure, lesson titles, course links, or complete course overviews\n- **Sequential patterns**: outline→content search, broad→refined search, multi-course comparisons\n- Synthesize tool results into accurate, fact-based responses\n- If tools yield no results, state this clearly without offering alternatives\n\nROUND PROGRESSION:\nRound 1: Primary information gathering (outline or broad search)\nRound 2 (optional): Refinement or additional context (specific content search)\n\nResponse Protocol:\n- **General knowledge questions**: Answer using existing knowledge without using tools\n- **Course-specific questions**: Use appropriate tool first, then answer\n- **Complex queries**: Use sequential tool calling for comprehensive answers\n- **Course outline queries**: Use the outline tool to provide complete course information including:\n  - Course title and link\n  - Instructor information\n  - Complete lesson list with numbers and titles\n- **No meta-commentary**:\n - Provide direct answers only — no reasoning process, tool explanations, or question-type analysis\n - Do not mention \"based on the search results\" or \"using the outline tool\"\n\nCOMPLETION SIGNALS:\n- Use definitive language when ready to provide final answer\n- Avoid unnecessary tool calls when sufficient information is available\n- Signal completion with comprehensive final answers\n\nAll responses must be:\n1. **Brief, Concise and focused** - Get to the point quickly\n2. **Educational** - Maintain instructional value\n3. **Clear** - Use accessible language\n4. **Example-supported** - Include relevant examples when they aid understanding\nProvide only the direct answer to what was asked.\n"

/-- System-content construction of `generate_response` (lines 99-103):
the base prompt, with a previous-conversation section appended when
`conversation_history` is truthy (a `None` or empty history is falsy). -/
def buildSystemContent (conversation_history : Option String) : String :=
  match conversation_history with
  | some h => if h.isEmpty then SYSTEM_PROMPT
              else SYSTEM_PROMPT ++ "\n\nPrevious conversation:\n" ++ h
  | none => SYSTEM_PROMPT

/-- Result of one tool dispatch as fed back to the model (lines 210-217):
the tool's output, or `"Tool execution failed: <message>"` when the tool
raised. -/
def toolResultFor (toolExec : ToolExec) (cb : ContentBlock) : String :=
  match toolExec cb.name cb.input with
  | .ok s => s
  | .error e => "Tool execution failed: " ++ e

/-- The batched tool results collected by `_execute_tools_only`
(lines 207-223): one `tool_result` entry per `tool_use` content block, in
order, correlated by the block's `id`. -/
def collectToolResults (toolExec : ToolExec) (blocks : List ContentBlock) :
    List ToolResultEntry :=
  blocks.filterMap fun cb =>
    if cb.type == "tool_use" then
      some ⟨"tool_result", cb.id, toolResultFor toolExec cb⟩
    else none

/-- The tool invocations dispatched by `_execute_tools_only`, in the order
the `tool_use` blocks appear in the response content. -/
def dispatchesOf (blocks : List ContentBlock) : List (String × ToolInput) :=
  blocks.filterMap fun cb =>
    if cb.type == "tool_use" then some (cb.name, cb.input) else none

/-- `AIGenerator._execute_tools_only` (lines 194-227): append the
assistant's content as a message, execute every `tool_use` block, and — if
any results were collected — append them as one single user message. -/
def execute_tools_only (toolExec : ToolExec) (response : ModelResponse)
    (messages : List Message) : List Message :=
  let messages := messages ++ [⟨"assistant", .blocks response.content⟩]
  let tool_results := collectToolResults toolExec response.content
  if tool_results.isEmpty then messages
  else messages ++ [⟨"user", .results tool_results⟩]

/-- How the round loop exits: an early `return` from inside the loop, or
falling through the `while` with the accumulated messages. -/
inductive LoopExit where
  | returned (s : String)
  | exhausted (messages : List Message)
deriving Repr, DecidableEq

/-- The `while rounds_completed < max_rounds` loop of
`_execute_sequential_rounds` (lines 139-175), by recursion on the remaining
round budget.  `roundsCompleted` is the number of completed rounds (also the
0-based index of the next client call); each iteration emits a tool-bearing
model-call event and, on a `tool_use` stop reason, a tool-batch event. -/
def roundLoop (client : Client) (toolExec : ToolExec) (system : String) :
    Nat → Nat → List Message → List Event → LoopExit × List Event
  | 0, _, messages, events => (.exhausted messages, events)
  | remaining + 1, roundsCompleted, messages, events =>
    let rc := roundsCompleted + 1
    let events := events ++ [.modelCall true system messages]
    match client roundsCompleted with
    | .exn e =>
      if rc = 1 then
        (.returned ("I encountered an error processing your request: " ++ e), events)
      else
        (.returned "I encountered an error during follow-up processing, but I can provide a partial response based on initial results.", events)
    | .ok response =>
      if response.stop_reason == "tool_use" then
        let messages := execute_tools_only toolExec response messages
        let events := events ++ [.toolBatch (dispatchesOf response.content)]
        roundLoop client toolExec system remaining rc messages events
      else
        match response.content with
        | [] => (.returned "I received an empty response from the AI.", events)
        | cb :: _ => (.returned cb.text, events)

/-- Text extraction shared by the no-tools fallback (lines 117-119) and the
early-termination branch (lines 164-166): the first content block's text,
or the empty-response sentinel. -/
def firstText (response : ModelResponse) : String :=
  match response.content with
  | [] => "I received an empty response from the AI."
  | cb :: _ => cb.text

/-- `AIGenerator._execute_sequential_rounds` (lines 121-192): run the round
loop; if it exhausts `max_rounds`, make one final call without tools and
return its first block's text, or the completion sentinel if that call
raises or returns empty content. -/
def execute_sequential_rounds (client : Client) (toolExec : ToolExec)
    (query : String) (system : String) (maxRounds : Nat) : String × List Event :=
  match roundLoop client toolExec system maxRounds 0 [⟨"user", .text query⟩] [] with
  | (.returned s, events) => (s, events)
  | (.exhausted messages, events) =>
    let events := events ++ [.modelCall false system messages]
    match client maxRounds with
    | .exn _ => ("I've completed my analysis but couldn't provide a final response.", events)
    | .ok response =>
      match response.content with
      | [] => ("I've completed my analysis but couldn't provide a final response.", events)
      | cb :: _ => (cb.text, events)

/-- A tool definition as passed in the `tools` parameter; only its presence
matters to the orchestrator, which forwards it verbatim. -/
structure ToolDefinition where
  name : String
  description : String
deriving Repr, DecidableEq

/-- Python truthiness of the `tools` argument: `None` and the empty list are
falsy. -/
def toolsTruthy : Option (List ToolDefinition) → Bool
  | none => false
  | some ts => !ts.isEmpty

/-- `AIGenerator.generate_response` (lines 79-119).  When `tools` is truthy
and a tool manager is present, delegate to the sequential round loop (which
never raises); otherwise issue a single call without tools — that fallback
call has no exception handler, so a raised exception propagates
(`.error`). -/
def generate_response (client : Client) (toolExec : ToolExec) (query : String)
    (conversation_history : Option String) (tools : Option (List ToolDefinition))
    (hasToolManager : Bool) (maxRounds : Nat) :
    Except String (String × List Event) :=
  let system := buildSystemContent conversation_history
  if toolsTruthy tools && hasToolManager then
    .ok (execute_sequential_rounds client toolExec query system maxRounds)
  else
    match client 0 with
    | .exn e => .error e
    | .ok response => .ok (firstText response, [.modelCall false system [⟨"user", .text query⟩]])

/-! ## Tool Registry and Content-Search Tool

`search_tools.py` itself is not part of the sources at hand; the registry
(`ToolManager`) and the content-search tool (`CourseSearchTool`) are
modelled from the specification (its §4.2 Tool Registry and §4.3
Content-Search Tool contracts) and the shapes exercised by
`backend/tests/test_search_tools.py`. -/

/-- A source attribution: a human-readable text label and an optional
link. -/
structure SourceAttribution where
  text : String
  link : Option String
deriving Repr, DecidableEq

/-- Modelled from the spec: a tool as registered in the Tool Registry
(`search_tools.py` is missing from the sources) — its unique name, its
`execute` behavior as a function of the keyword arguments, and its current
`last_sources`.  Tools without a `last_sources` field carry `none`. -/
structure RegisteredTool where
  name : String
  run : ToolInput → String
  last_sources : Option (List SourceAttribution)

/-- Modelled from the spec: the Tool Registry (`ToolManager`) — the mapping
name → tool, kept in registration order. -/
structure ToolManager where
  tools : List RegisteredTool

/-- Modelled from the spec: `ToolManager.execute_tool` — dispatch to the
registered tool of that name; if the name is unknown, return the literal
string `"Tool '<name>' not found"` rather than raising. -/
def ToolManager.execute_tool (tm : ToolManager) (name : String) (input : ToolInput) : String :=
  match tm.tools.find? (fun t => t.name == name) with
  | some t => t.run input
  | none => "Tool '" ++ name ++ "' not found"

/-- Modelled from the spec: `ToolManager.get_last_sources` — the
concatenation, in registration order, of every registered tool's current
`last_sources`; tools without that field contribute nothing. -/
def ToolManager.get_last_sources (tm : ToolManager) : List SourceAttribution :=
  (tm.tools.map fun t => t.last_sources.getD []).flatten

/-- Modelled from the spec: `ToolManager.reset_sources` — set every
registered tool's `last_sources` to empty. -/
def ToolManager.reset_sources (tm : ToolManager) : ToolManager :=
  ⟨tm.tools.map fun t => { t with last_sources := t.last_sources.map fun _ => [] }⟩

/-- Metadata of one matched document chunk: course title and optional
lesson number. -/
structure ChunkMeta where
  course_title : String
  lesson_number : Option Int
deriving Repr, DecidableEq

/-- The retrieval index's search result: parallel lists of documents and
metadata, and an optional error (distances are unused by the tool and not
modelled). -/
structure SearchResults where
  documents : List String
  metadata : List ChunkMeta
  error : Option String

/-- The retrieval-index interface consumed by the content-search tool. -/
structure VectorStore where
  search : String → Option String → Option Int → SearchResults
  get_lesson_link : String → Int → Option String

/-- Modelled from the spec: the content-search tool's state — its store and
its current `last_sources`. -/
structure CourseSearchTool where
  store : VectorStore
  last_sources : List SourceAttribution

/-- The lesson clause of a result header, omitted when the match carries no
lesson number. -/
def lessonClause : Option Int → String
  | some n => " - Lesson " ++ toString n
  | none => ""

/-- One rendered result block: `"[<course_title> - Lesson <n>]"` header
followed by the document text. -/
def renderBlock (meta : ChunkMeta) (doc : String) : String :=
  "[" ++ meta.course_title ++ lessonClause meta.lesson_number ++ "]\n" ++ doc

/-- The empty-result message, with the filter clauses that were supplied. -/
def emptyMessage : Option String → Option Int → String
  | none, none => "No relevant content found."
  | some c, none => "No relevant content found in course '" ++ c ++ "'."
  | none, some n => "No relevant content found in lesson " ++ toString n ++ "."
  | some c, some n =>
    "No relevant content found in course '" ++ c ++ "' in lesson " ++ toString n ++ "."

/-- The source attribution produced for one match: text
`"<course_title> - Lesson <n>"` with the link resolved via
`get_lesson_link` when a lesson number is present, else the bare course
title with no link. -/
def sourceFor (store : VectorStore) (meta : ChunkMeta) : SourceAttribution :=
  match meta.lesson_number with
  | some n =>
    ⟨meta.course_title ++ " - Lesson " ++ toString n, store.get_lesson_link meta.course_title n⟩
  | none => ⟨meta.course_title, none⟩

/-- Modelled from the spec: `CourseSearchTool.execute` — delegate to the
index's search; return the index's error verbatim; return the
empty-result message when no documents matched; otherwise render all
matched blocks joined by blank lines and, as a side effect, overwrite
`last_sources` with one attribution per match, in order. -/
def CourseSearchTool.execute (t : CourseSearchTool) (query : String)
    (course_name : Option String) (lesson_number : Option Int) :
    String × CourseSearchTool :=
  let results := t.store.search query course_name lesson_number
  match results.error with
  | some e => (e, t)
  | none =>
    if results.documents.isEmpty then (emptyMessage course_name lesson_number, t)
    else
      let pairs := results.documents.zip results.metadata
      (String.intercalate "\n\n" (pairs.map fun dm => renderBlock dm.2 dm.1),
       { t with last_sources := pairs.map fun dm => sourceFor t.store dm.2 })

/-! ## Trace analysis helpers -/

/-- Whether a client call outcome is a successful response whose stop
reason signals tool use. -/
def isToolUseCall : CallResult → Bool
  | .ok r => r.stop_reason == "tool_use"
  | .exn _ => false

/-- Whether a list of content blocks carries a tool-use block. -/
def hasToolUse (bs : List ContentBlock) : Bool :=
  bs.any fun cb => cb.type == "tool_use"

/-- The tool-use blocks of a response content, in order. -/
def toolUseBlocks (bs : List ContentBlock) : List ContentBlock :=
  bs.filter fun cb => cb.type == "tool_use"

/-- Number of model-call events with the given tools-parameter presence. -/
def countModelCalls (withTools : Bool) : List Event → Nat
  | [] => 0
  | .modelCall w _ _ :: es => (if w == withTools then 1 else 0) + countModelCalls withTools es
  | .toolBatch _ :: es => countModelCalls withTools es

/-- Number of tool-dispatch batch events. -/
def countToolBatches : List Event → Nat
  | [] => 0
  | .modelCall _ _ _ :: es => countToolBatches es
  | .toolBatch _ :: es => 1 + countToolBatches es

/-- The shape of the event trace of `n` consecutive tool-bearing rounds:
each round is one model call with tools followed by one tool-dispatch
batch. -/
inductive ToolRounds : Nat → List Event → Prop where
  | nil : ToolRounds 0 []
  | cons (sys : String) (m : List Message) (b : List (String × ToolInput))
      (n : Nat) (es : List Event) (h : ToolRounds n es) :
      ToolRounds (n + 1) (.modelCall true sys m :: .toolBatch b :: es)

/-! ## Supporting lemmas -/

theorem toolRounds_count_true {n : Nat} {E : List Event} (h : ToolRounds n E) :
    countModelCalls true E = n := by
  induction h with
  | nil => rfl
  | cons sys m b n es h ih => simp [countModelCalls, ih]; omega

theorem toolRounds_count_false {n : Nat} {E : List Event} (h : ToolRounds n E) :
    countModelCalls false E = 0 := by
  induction h with
  | nil => rfl
  | cons sys m b n es h ih => simp [countModelCalls, ih]

theorem toolRounds_count_batches {n : Nat} {E : List Event} (h : ToolRounds n E) :
    countToolBatches E = n := by
  induction h with
  | nil => rfl
  | cons sys m b n es h ih => simp [countToolBatches, ih]; omega

theorem countModelCalls_append (w : Bool) (l₁ l₂ : List Event) :
    countModelCalls w (l₁ ++ l₂) = countModelCalls w l₁ + countModelCalls w l₂ := by
  induction l₁ with
  | nil => simp [countModelCalls]
  | cons e es ih =>
    cases e with
    | modelCall w s m => simp [countModelCalls, ih]; omega
    | toolBatch b => simp [countModelCalls, ih]

theorem countToolBatches_append (l₁ l₂ : List Event) :
    countToolBatches (l₁ ++ l₂) = countToolBatches l₁ + countToolBatches l₂ := by
  induction l₁ with
  | nil => simp [countToolBatches]
  | cons e es ih =>
    cases e with
    | modelCall w s m => simp [countToolBatches, ih]
    | toolBatch b => simp [countToolBatches, ih]; omega

/-- After `j` consecutive tool-use responses starting at call index `rc`,
the round loop reaches call index `rc + j` having appended `j` tool-round
event pairs, with the remaining budget untouched. -/
theorem roundLoop_tool_prefix (client : Client) (toolExec : ToolExec) (sys : String) :
    ∀ (j : Nat), ∀ (rc : Nat) (messages : List Message) (events : List Event),
      (∀ i, i < j → isToolUseCall (client (rc + i)) = true) →
      ∃ (M : List Message) (E : List Event), ToolRounds j E ∧
        ∀ rem, roundLoop client toolExec sys (j + rem) rc messages events
             = roundLoop client toolExec sys rem (rc + j) M (events ++ E) := by
  intro j
  induction j with
  | zero =>
    intro rc messages events _
    exact ⟨messages, [], .nil, fun rem => by simp⟩
  | succ j ih =>
    intro rc messages events h
    have h0 := h 0 (Nat.succ_pos j)
    cases hcr : client (rc + 0) with
    | exn e => rw [hcr] at h0; simp [isToolUseCall] at h0
    | ok r =>
      rw [hcr] at h0
      simp only [isToolUseCall, beq_iff_eq] at h0
      rw [Nat.add_zero] at hcr
      obtain ⟨M, E, hTR, heq⟩ := ih (rc + 1)
        (execute_tools_only toolExec r messages)
        (events ++ [.modelCall true sys messages, .toolBatch (dispatchesOf r.content)])
        (fun i hi => by
          have := h (i + 1) (by omega)
          rwa [show rc + (i + 1) = rc + 1 + i by omega] at this)
      refine ⟨M, .modelCall true sys messages :: .toolBatch (dispatchesOf r.content) :: E,
        .cons _ _ _ _ _ hTR, fun rem => ?_⟩
      have harith : j + 1 + rem = (j + rem) + 1 := by omega
      rw [harith]
      have hstep : roundLoop client toolExec sys ((j + rem) + 1) rc messages events
          = roundLoop client toolExec sys (j + rem) (rc + 1)
              (execute_tools_only toolExec r messages)
              (events ++ [.modelCall true sys messages, .toolBatch (dispatchesOf r.content)]) := by
        simp [roundLoop, hcr, h0]
      rw [hstep, heq rem]
      rw [show rc + 1 + j = rc + (j + 1) by omega]
      congr 1
      simp

/-! ## Claims -/

/-- C1: For every `max_rounds = N ≥ 1` and every model that responds to each
tool-bearing call with a tool-use signal, `generate_response` issues exactly
`N` model calls with tool definitions followed by exactly one additional
model call without tool definitions (`N + 1` model calls in total), and
dispatches exactly `N` tool-execution batches. -/
theorem C1_n_tool_rounds_then_one_forced_call
    (client : Client) (toolExec : ToolExec) (query : String)
    (hist : Option String) (tds : List ToolDefinition) (N : Nat)
    (htds : tds ≠ []) (_hN : 1 ≤ N)
    (hclient : ∀ i, i < N → isToolUseCall (client i) = true) :
    ∃ s es E M,
      generate_response client toolExec query hist (some tds) true N = .ok (s, es) ∧
      es = E ++ [.modelCall false (buildSystemContent hist) M] ∧
      ToolRounds N E ∧
      countModelCalls true es = N ∧
      countModelCalls false es = 1 ∧
      countToolBatches es = N := by
  obtain ⟨M, E, hTR, heq⟩ := roundLoop_tool_prefix client toolExec (buildSystemContent hist)
    N 0 [⟨"user", .text query⟩] [] (fun i hi => by simpa using hclient i hi)
  have hloop : roundLoop client toolExec (buildSystemContent hist) N 0
      [⟨"user", .text query⟩] [] = (.exhausted M, E) := by
    have := heq 0
    simpa using this
  have hgen : generate_response client toolExec query hist (some tds) true N
      = .ok (execute_sequential_rounds client toolExec query (buildSystemContent hist) N) := by
    cases tds with
    | nil => exact absurd rfl htds
    | cons t ts => simp [generate_response, toolsTruthy]
  have hsnd : (execute_sequential_rounds client toolExec query (buildSystemContent hist) N).2
      = E ++ [.modelCall false (buildSystemContent hist) M] := by
    unfold execute_sequential_rounds
    rw [hloop]
    cases client N with
    | exn e => simp
    | ok r =>
      cases hc : r.content with
      | nil => simp [hc]
      | cons cb rest => simp [hc]
  refine ⟨(execute_sequential_rounds client toolExec query (buildSystemContent hist) N).1,
    E ++ [.modelCall false (buildSystemContent hist) M], E, M, ?_, rfl, hTR, ?_, ?_, ?_⟩
  · rw [hgen, ← hsnd]
  · rw [countModelCalls_append, toolRounds_count_true hTR]
    simp [countModelCalls]
  · rw [countModelCalls_append, toolRounds_count_false hTR]
    simp [countModelCalls]
  · rw [countToolBatches_append, toolRounds_count_batches hTR]
    simp [countToolBatches]

/-- C2: For every round `k ≤ max_rounds`, if the model's response at
round `k` carries no tool-use blocks (granting that, per the service
interface, a `tool_use` stop reason is only emitted alongside a tool-use
block), `generate_response` returns that response's text immediately after
round `k` — or the sentinel `"I received an empty response from the AI."`
if its content is empty — making no further model calls and executing no
tools in that round. -/
theorem C2_no_tool_use_returns_immediately
    (client : Client) (toolExec : ToolExec) (query : String)
    (hist : Option String) (tds : List ToolDefinition) (N k : Nat) (r : ModelResponse)
    (htds : tds ≠ []) (hk1 : 1 ≤ k) (hkN : k ≤ N)
    (hprev : ∀ i, i + 1 < k → isToolUseCall (client i) = true)
    (hr : client (k - 1) = .ok r)
    (hnoblocks : hasToolUse r.content = false)
    (hwf : r.stop_reason = "tool_use" → hasToolUse r.content = true) :
    ∃ es E M,
      generate_response client toolExec query hist (some tds) true N
        = .ok (firstText r, es) ∧
      es = E ++ [.modelCall true (buildSystemContent hist) M] ∧
      ToolRounds (k - 1) E ∧
      countModelCalls true es = k ∧
      countModelCalls false es = 0 ∧
      countToolBatches es = k - 1 ∧
      (r.content = [] → firstText r = "I received an empty response from the AI.") ∧
      (∀ cb rest, r.content = cb :: rest → firstText r = cb.text) := by
  obtain ⟨M, E, hTR, heq⟩ := roundLoop_tool_prefix client toolExec (buildSystemContent hist)
    (k - 1) 0 [⟨"user", .text query⟩] []
    (fun i hi => by simpa using hprev i (by omega))
  obtain ⟨rem, hrem⟩ : ∃ rem, N = (k - 1) + (rem + 1) := ⟨N - k, by omega⟩
  have hstop : (r.stop_reason == "tool_use") = false := by
    rw [beq_eq_false_iff_ne]
    intro hs
    simp [hwf hs] at hnoblocks
  have hstep : roundLoop client toolExec (buildSystemContent hist) (rem + 1) (k - 1) M E
      = (.returned (firstText r), E ++ [.modelCall true (buildSystemContent hist) M]) := by
    cases hc : r.content with
    | nil => simp [roundLoop, hr, hstop, firstText, hc]
    | cons cb rest => simp [roundLoop, hr, hstop, firstText, hc]
  have hloop : roundLoop client toolExec (buildSystemContent hist) N 0
      [⟨"user", .text query⟩] []
      = (.returned (firstText r), E ++ [.modelCall true (buildSystemContent hist) M]) := by
    rw [hrem, heq (rem + 1)]
    simpa using hstep
  have hgen : generate_response client toolExec query hist (some tds) true N
      = .ok (execute_sequential_rounds client toolExec query (buildSystemContent hist) N) := by
    cases tds with
    | nil => exact absurd rfl htds
    | cons t ts => simp [generate_response, toolsTruthy]
  have hseq : execute_sequential_rounds client toolExec query (buildSystemContent hist) N
      = (firstText r, E ++ [.modelCall true (buildSystemContent hist) M]) := by
    unfold execute_sequential_rounds
    rw [hloop]
  refine ⟨E ++ [.modelCall true (buildSystemContent hist) M], E, M, ?_, rfl, hTR, ?_, ?_, ?_, ?_, ?_⟩
  · rw [hgen, hseq]
  · rw [countModelCalls_append, toolRounds_count_true hTR]
    simp [countModelCalls]
    omega
  · rw [countModelCalls_append, toolRounds_count_false hTR]
    simp [countModelCalls]
  · rw [countToolBatches_append, toolRounds_count_batches hTR]
    simp [countToolBatches]
  · intro hc; simp [firstText, hc]
  · intro cb rest hc; simp [firstText, hc]

theorem filterMapGuard {α β : Type} (p : α → Bool) (f : α → β) (l : List α) :
    l.filterMap (fun a => if p a then some (f a) else none) = (l.filter p).map f := by
  induction l with
  | nil => rfl
  | cons a l ih =>
    by_cases hp : p a <;> simp [List.filterMap_cons, List.filter_cons, hp, ih]

/-- C3: When a model response signals tool use, the dispatch batch contains
one registry execution per tool-use block of the response, in the order the
blocks appear; a raised tool exception is replaced by the literal text
`"Tool execution failed: <message>"`; and all results of the round are
appended as one single user message holding one `tool_result` entry per
request, each carrying that request's id. -/
theorem C3_dispatch_per_block_and_single_result_message
    (toolExec : ToolExec) (r : ModelResponse) (messages : List Message)
    (h : hasToolUse r.content = true) :
    execute_tools_only toolExec r messages
      = messages ++ [⟨"assistant", .blocks r.content⟩,
          ⟨"user", .results ((toolUseBlocks r.content).map
            fun cb => ⟨"tool_result", cb.id, toolResultFor toolExec cb⟩)⟩] ∧
    dispatchesOf r.content = (toolUseBlocks r.content).map (fun cb => (cb.name, cb.input)) ∧
    (∀ cb e, toolExec cb.name cb.input = .error e →
      toolResultFor toolExec cb = "Tool execution failed: " ++ e) := by
  have hcollect : collectToolResults toolExec r.content
      = (toolUseBlocks r.content).map
          (fun cb => ⟨"tool_result", cb.id, toolResultFor toolExec cb⟩) :=
    filterMapGuard _ _ _
  have hdisp : dispatchesOf r.content
      = (toolUseBlocks r.content).map (fun cb => (cb.name, cb.input)) :=
    filterMapGuard _ _ _
  have hne : (toolUseBlocks r.content) ≠ [] := by
    unfold toolUseBlocks
    intro hnil
    rw [List.filter_eq_nil_iff] at hnil
    rw [hasToolUse, List.any_eq_true] at h
    obtain ⟨cb, hcb, hp⟩ := h
    exact hnil cb hcb hp
  refine ⟨?_, hdisp, fun cb e he => by simp [toolResultFor, he]⟩
  unfold execute_tools_only
  rw [hcollect]
  have : ((toolUseBlocks r.content).map
      (fun cb => (⟨"tool_result", cb.id, toolResultFor toolExec cb⟩ : ToolResultEntry))).isEmpty
      = false := by
    cases htb : toolUseBlocks r.content with
    | nil => exact absurd htb hne
    | cons x xs => simp
  simp [this]

/-- C4: If the model call inside the round loop raises, `generate_response`
never propagates the exception: with tools and a tool manager present it
always returns `.ok`; on a round-1 failure it returns an apology embedding
the exception's message, and on any later round a fixed apology mentioning
that a partial response based on initial results may be available. -/
theorem C4_loop_model_failure_handled
    (client : Client) (toolExec : ToolExec) (query : String)
    (hist : Option String) (tds : List ToolDefinition) (N : Nat)
    (htds : tds ≠ []) :
    (∃ p, generate_response client toolExec query hist (some tds) true N = .ok p) ∧
    (∀ k e, 1 ≤ k → k ≤ N → (∀ i, i + 1 < k → isToolUseCall (client i) = true) →
      client (k - 1) = .exn e →
      ∃ es, generate_response client toolExec query hist (some tds) true N
        = .ok ((if k = 1
            then "I encountered an error processing your request: " ++ e
            else "I encountered an error during follow-up processing, but I can provide a partial response based on initial results."), es)) := by
  have hgen : generate_response client toolExec query hist (some tds) true N
      = .ok (execute_sequential_rounds client toolExec query (buildSystemContent hist) N) := by
    cases tds with
    | nil => exact absurd rfl htds
    | cons t ts => simp [generate_response, toolsTruthy]
  refine ⟨⟨_, hgen⟩, fun k e hk1 hkN hprev hexn => ?_⟩
  obtain ⟨M, E, hTR, heq⟩ := roundLoop_tool_prefix client toolExec (buildSystemContent hist)
    (k - 1) 0 [⟨"user", .text query⟩] []
    (fun i hi => by simpa using hprev i (by omega))
  obtain ⟨rem, hrem⟩ : ∃ rem, N = (k - 1) + (rem + 1) := ⟨N - k, by omega⟩
  have hstep : roundLoop client toolExec (buildSystemContent hist) (rem + 1) (k - 1) M E
      = (.returned (if k = 1
            then "I encountered an error processing your request: " ++ e
            else "I encountered an error during follow-up processing, but I can provide a partial response based on initial results."),
         E ++ [.modelCall true (buildSystemContent hist) M]) := by
    by_cases hk : k = 1
    · subst hk
      norm_num at hexn
      simp [roundLoop, hexn]
    · have hne1 : ¬(k - 1 + 1 = 1) := by omega
      simp [roundLoop, hexn, hk, hne1]
  have hloop : roundLoop client toolExec (buildSystemContent hist) N 0
      [⟨"user", .text query⟩] []
      = (.returned (if k = 1
            then "I encountered an error processing your request: " ++ e
            else "I encountered an error during follow-up processing, but I can provide a partial response based on initial results."),
         E ++ [.modelCall true (buildSystemContent hist) M]) := by
    rw [hrem, heq (rem + 1)]
    simpa using hstep
  refine ⟨E ++ [.modelCall true (buildSystemContent hist) M], ?_⟩
  rw [hgen]
  unfold execute_sequential_rounds
  rw [hloop]

/-- C5: If every round up to `max_rounds` ends in tool use, the orchestrator
issues one final model call carrying the loop's accumulated message history
and no tool definitions; it returns that call's first block's text when the
call succeeds with non-empty content, and exactly the sentinel
`"I've completed my analysis but couldn't provide a final response."` when
that final call raises or returns empty content. -/
theorem C5_forced_final_call_behavior
    (client : Client) (toolExec : ToolExec) (query : String)
    (hist : Option String) (tds : List ToolDefinition) (N : Nat)
    (htds : tds ≠ [])
    (hclient : ∀ i, i < N → isToolUseCall (client i) = true) :
    ∃ M E res,
      roundLoop client toolExec (buildSystemContent hist) N 0
        [⟨"user", .text query⟩] [] = (.exhausted M, E) ∧
      generate_response client toolExec query hist (some tds) true N
        = .ok (res, E ++ [.modelCall false (buildSystemContent hist) M]) ∧
      (∀ e, client N = .exn e →
        res = "I've completed my analysis but couldn't provide a final response.") ∧
      (∀ r, client N = .ok r → r.content = [] →
        res = "I've completed my analysis but couldn't provide a final response.") ∧
      (∀ r cb rest, client N = .ok r → r.content = cb :: rest → res = cb.text) := by
  obtain ⟨M, E, hTR, heq⟩ := roundLoop_tool_prefix client toolExec (buildSystemContent hist)
    N 0 [⟨"user", .text query⟩] [] (fun i hi => by simpa using hclient i hi)
  have hloop : roundLoop client toolExec (buildSystemContent hist) N 0
      [⟨"user", .text query⟩] [] = (.exhausted M, E) := by
    have := heq 0
    simpa using this
  have hgen : generate_response client toolExec query hist (some tds) true N
      = .ok (execute_sequential_rounds client toolExec query (buildSystemContent hist) N) := by
    cases tds with
    | nil => exact absurd rfl htds
    | cons t ts => simp [generate_response, toolsTruthy]
  refine ⟨M, E, (execute_sequential_rounds client toolExec query (buildSystemContent hist) N).1,
    hloop, ?_, ?_, ?_, ?_⟩
  · rw [hgen]
    have : (execute_sequential_rounds client toolExec query (buildSystemContent hist) N).2
        = E ++ [.modelCall false (buildSystemContent hist) M] := by
      unfold execute_sequential_rounds
      rw [hloop]
      cases client N with
      | exn e => simp
      | ok r =>
        cases hc : r.content with
        | nil => simp [hc]
        | cons cb rest => simp [hc]
    rw [← this]
  · intro e hc
    unfold execute_sequential_rounds
    rw [hloop, hc]
  · intro r hc hcon
    unfold execute_sequential_rounds
    rw [hloop, hc]
    simp [hcon]
  · intro r cb rest hc hcon
    unfold execute_sequential_rounds
    rw [hloop, hc]
    simp [hcon]

/-- C6: If tool definitions or the tool manager is absent,
`generate_response` issues exactly one model call, with the user query as
the only message and no tools parameter, and returns the first content
block's text — or exactly the sentinel
`"I received an empty response from the AI."` when the response carries no
content blocks. -/
theorem C6_absent_tools_single_call
    (client : Client) (toolExec : ToolExec) (query : String)
    (hist : Option String) (tools : Option (List ToolDefinition)) (hasTM : Bool)
    (N : Nat) (r : ModelResponse)
    (habsent : tools = none ∨ hasTM = false)
    (hok : client 0 = .ok r) :
    generate_response client toolExec query hist tools hasTM N
      = .ok (firstText r,
          [.modelCall false (buildSystemContent hist) [⟨"user", .text query⟩]]) ∧
    (r.content = [] → firstText r = "I received an empty response from the AI.") ∧
    (∀ cb rest, r.content = cb :: rest → firstText r = cb.text) := by
  refine ⟨?_, fun hc => by simp [firstText, hc], fun cb rest hc => by simp [firstText, hc]⟩
  rcases habsent with h | h
  · subst h
    simp [generate_response, toolsTruthy, hok]
  · subst h
    simp [generate_response, hok]

/-- C10: If `generate_response` is called with `tools` equal to the empty
list (even with a tool manager supplied), it takes the single-call no-tools
path: exactly one model call is issued, without a tools parameter and with
the user query as the only message; no tool batch is ever dispatched and
the round loop is never entered. -/
theorem C10_empty_tools_list_single_call_path
    (client : Client) (toolExec : ToolExec) (query : String)
    (hist : Option String) (N : Nat) (r : ModelResponse)
    (hok : client 0 = .ok r) :
    generate_response client toolExec query hist (some []) true N
      = .ok (firstText r,
          [.modelCall false (buildSystemContent hist) [⟨"user", .text query⟩]]) ∧
    countToolBatches
      [.modelCall false (buildSystemContent hist) [⟨"user", .text query⟩]] = 0 ∧
    countModelCalls false
      [.modelCall false (buildSystemContent hist) [⟨"user", .text query⟩]] = 1 ∧
    countModelCalls true
      [.modelCall false (buildSystemContent hist) [⟨"user", .text query⟩]] = 0 := by
  refine ⟨?_, rfl, ?_, ?_⟩
  · simp [generate_response, toolsTruthy, hok]
  · simp [countModelCalls]
  · simp [countModelCalls]

/-- C7: For every name that has no registered tool, the registry's
`execute_tool` returns exactly the string `"Tool '<name>' not found"` — it
is a total function, so it cannot raise. -/
theorem C7_unknown_tool_name_sentinel
    (tm : ToolManager) (name : String) (input : ToolInput)
    (h : ∀ t ∈ tm.tools, t.name ≠ name) :
    tm.execute_tool name input = "Tool '" ++ name ++ "' not found" := by
  unfold ToolManager.execute_tool
  have hfind : tm.tools.find? (fun t => t.name == name) = none := by
    rw [List.find?_eq_none]
    intro t ht
    simpa using h t ht
  rw [hfind]

/-- C8: For every registry state, whatever tool activity occurred before,
`reset_sources` makes a subsequent `get_last_sources` return the empty
sequence: every registered tool's `last_sources` is set to empty. -/
theorem C8_reset_sources_then_get_empty (tm : ToolManager) :
    tm.reset_sources.get_last_sources = [] := by
  obtain ⟨ts⟩ := tm
  induction ts with
  | nil => rfl
  | cons t ts ih =>
    simp only [ToolManager.reset_sources, ToolManager.get_last_sources,
      List.map_cons, List.flatten_cons] at ih ⊢
    rw [ih]
    cases t.last_sources <;> simp

/-- C9: For every search returning matches, the content-search tool's
`execute` overwrites `last_sources` — the new value is one attribution per
match, in match order, independent of the tool's previous `last_sources` —
with each attribution's text equal to `"<course_title> - Lesson <n>"` and
its link resolved via the index's `get_lesson_link` when a lesson number is
present, and the bare course title with no link otherwise. -/
theorem C9_search_overwrites_last_sources
    (t : CourseSearchTool) (query : String) (cn : Option String) (ln : Option Int)
    (herr : (t.store.search query cn ln).error = none)
    (hne : (t.store.search query cn ln).documents ≠ []) :
    ((t.execute query cn ln).2).last_sources
      = ((t.store.search query cn ln).documents.zip
          (t.store.search query cn ln).metadata).map (fun dm => sourceFor t.store dm.2) ∧
    (∀ meta : ChunkMeta, ∀ n : Int, meta.lesson_number = some n →
      sourceFor t.store meta
        = ⟨meta.course_title ++ " - Lesson " ++ toString n,
           t.store.get_lesson_link meta.course_title n⟩) ∧
    (∀ meta : ChunkMeta, meta.lesson_number = none →
      sourceFor t.store meta = ⟨meta.course_title, none⟩) := by
  refine ⟨?_, fun meta n hm => by simp [sourceFor, hm],
    fun meta hm => by simp [sourceFor, hm]⟩
  have hempty : (t.store.search query cn ln).documents.isEmpty = false := by
    cases hd : (t.store.search query cn ln).documents with
    | nil => exact absurd hd hne
    | cons d ds => simp
  unfold CourseSearchTool.execute
  simp only []
  rw [herr, hempty]
  simp

/-! ## Concrete instantiations -/

/-- A concrete tool-use response. -/
def demoToolUse : ModelResponse :=
  ⟨"tool_use", [ContentBlock.mkToolUse "search_course_content" [("query", "q")] "toolu_1"]⟩

/-- A concrete plain-text response. -/
def demoText (s : String) : ModelResponse := ⟨"end_turn", [ContentBlock.mkText s]⟩

/-- A concrete tool executor that always succeeds. -/
def demoExec : ToolExec := fun _ _ => .ok "result text"

/-- A concrete non-empty tool-definition list. -/
def demoDefs : List ToolDefinition := [⟨"search_course_content", "Search course materials"⟩]

theorem C1_witness :
    ∃ s es E M,
      generate_response (fun _ => .ok demoToolUse) demoExec "What is MCP?" none
        (some demoDefs) true 2 = .ok (s, es) ∧
      es = E ++ [.modelCall false (buildSystemContent none) M] ∧
      ToolRounds 2 E ∧
      countModelCalls true es = 2 ∧
      countModelCalls false es = 1 ∧
      countToolBatches es = 2 :=
  C1_n_tool_rounds_then_one_forced_call (fun _ => .ok demoToolUse) demoExec "What is MCP?"
    none demoDefs 2 (by simp [demoDefs]) (by omega) (fun i _ => rfl)

theorem C2_witness :
    ∃ es E M,
      generate_response (fun i => if i = 0 then .ok demoToolUse else .ok (demoText "ans"))
        demoExec "q" none (some demoDefs) true 2
        = .ok (firstText (demoText "ans"), es) ∧
      es = E ++ [.modelCall true (buildSystemContent none) M] ∧
      ToolRounds 1 E ∧
      countModelCalls true es = 2 ∧
      countModelCalls false es = 0 ∧
      countToolBatches es = 1 ∧
      ((demoText "ans").content = [] →
        firstText (demoText "ans") = "I received an empty response from the AI.") ∧
      (∀ cb rest, (demoText "ans").content = cb :: rest →
        firstText (demoText "ans") = cb.text) :=
  C2_no_tool_use_returns_immediately
    (fun i => if i = 0 then .ok demoToolUse else .ok (demoText "ans"))
    demoExec "q" none demoDefs 2 2 (demoText "ans")
    (by simp [demoDefs]) (by omega) (by omega)
    (fun i hi => by
      have h0 : i = 0 := by omega
      subst h0; rfl)
    rfl rfl (fun h => by simp [demoText, ContentBlock.mkText] at h)

theorem C3_witness :
    execute_tools_only
      (fun name _ => if name = "bad_tool" then .error "boom" else .ok "ok-result")
      ⟨"tool_use", [ContentBlock.mkText "thinking",
        ContentBlock.mkToolUse "search_course_content" [("query", "x")] "id1",
        ContentBlock.mkToolUse "bad_tool" [] "id2"]⟩
      [⟨"user", .text "q"⟩]
      = [⟨"user", .text "q"⟩] ++
          [⟨"assistant", .blocks [ContentBlock.mkText "thinking",
              ContentBlock.mkToolUse "search_course_content" [("query", "x")] "id1",
              ContentBlock.mkToolUse "bad_tool" [] "id2"]⟩,
           ⟨"user", .results ((toolUseBlocks [ContentBlock.mkText "thinking",
              ContentBlock.mkToolUse "search_course_content" [("query", "x")] "id1",
              ContentBlock.mkToolUse "bad_tool" [] "id2"]).map
            fun cb => ⟨"tool_result", cb.id,
              toolResultFor
                (fun name _ => if name = "bad_tool" then .error "boom" else .ok "ok-result")
                cb⟩)⟩] ∧
    dispatchesOf [ContentBlock.mkText "thinking",
        ContentBlock.mkToolUse "search_course_content" [("query", "x")] "id1",
        ContentBlock.mkToolUse "bad_tool" [] "id2"]
      = (toolUseBlocks [ContentBlock.mkText "thinking",
          ContentBlock.mkToolUse "search_course_content" [("query", "x")] "id1",
          ContentBlock.mkToolUse "bad_tool" [] "id2"]).map (fun cb => (cb.name, cb.input)) ∧
    (∀ cb e,
      (fun name (_ : ToolInput) =>
        if name = "bad_tool" then Except.error "boom" else Except.ok "ok-result")
          cb.name cb.input = .error e →
      toolResultFor
        (fun name _ => if name = "bad_tool" then .error "boom" else .ok "ok-result") cb
        = "Tool execution failed: " ++ e) :=
  C3_dispatch_per_block_and_single_result_message
    (fun name _ => if name = "bad_tool" then .error "boom" else .ok "ok-result")
    ⟨"tool_use", [ContentBlock.mkText "thinking",
      ContentBlock.mkToolUse "search_course_content" [("query", "x")] "id1",
      ContentBlock.mkToolUse "bad_tool" [] "id2"]⟩
    [⟨"user", .text "q"⟩] rfl

theorem C4_witness :
    (∃ p, generate_response
      (fun i => if i = 0 then .ok demoToolUse else .exn "rate limited")
      demoExec "q" none (some demoDefs) true 2 = .ok p) ∧
    (∃ es, generate_response
      (fun i => if i = 0 then .ok demoToolUse else .exn "rate limited")
      demoExec "q" none (some demoDefs) true 2
      = .ok ("I encountered an error during follow-up processing, but I can provide a partial response based on initial results.", es)) := by
  have h := C4_loop_model_failure_handled
    (fun i => if i = 0 then .ok demoToolUse else .exn "rate limited")
    demoExec "q" none demoDefs 2 (by simp [demoDefs])
  refine ⟨h.1, ?_⟩
  have h2 := h.2 2 "rate limited" (by omega) (by omega)
    (fun i hi => by
      have h0 : i = 0 := by omega
      subst h0; rfl)
    rfl
  simpa using h2

theorem C5_witness :
    ∃ M E res,
      roundLoop (fun i => if i < 2 then .ok demoToolUse else .ok (demoText "final answer"))
        demoExec (buildSystemContent none) 2 0 [⟨"user", .text "q"⟩] []
        = (.exhausted M, E) ∧
      generate_response
        (fun i => if i < 2 then .ok demoToolUse else .ok (demoText "final answer"))
        demoExec "q" none (some demoDefs) true 2
        = .ok (res, E ++ [.modelCall false (buildSystemContent none) M]) ∧
      (∀ e, (fun i => if i < 2 then CallResult.ok demoToolUse
          else .ok (demoText "final answer")) 2 = .exn e →
        res = "I've completed my analysis but couldn't provide a final response.") ∧
      (∀ r, (fun i => if i < 2 then CallResult.ok demoToolUse
          else .ok (demoText "final answer")) 2 = .ok r → r.content = [] →
        res = "I've completed my analysis but couldn't provide a final response.") ∧
      (∀ r cb rest, (fun i => if i < 2 then CallResult.ok demoToolUse
          else .ok (demoText "final answer")) 2 = .ok r → r.content = cb :: rest →
        res = cb.text) :=
  C5_forced_final_call_behavior
    (fun i => if i < 2 then .ok demoToolUse else .ok (demoText "final answer"))
    demoExec "q" none demoDefs 2 (by simp [demoDefs]) (fun i hi => by simp [hi, isToolUseCall, demoToolUse])

theorem C6_witness :
    generate_response (fun _ => .ok (demoText "Paris")) demoExec
      "What is the capital of France?" none none true 3
      = .ok (firstText (demoText "Paris"),
          [.modelCall false (buildSystemContent none)
            [⟨"user", .text "What is the capital of France?"⟩]]) ∧
    ((demoText "Paris").content = [] →
      firstText (demoText "Paris") = "I received an empty response from the AI.") ∧
    (∀ cb rest, (demoText "Paris").content = cb :: rest →
      firstText (demoText "Paris") = cb.text) :=
  C6_absent_tools_single_call (fun _ => .ok (demoText "Paris")) demoExec
    "What is the capital of France?" none none true 3 (demoText "Paris")
    (Or.inl rfl) rfl

theorem C7_witness :
    ToolManager.execute_tool ⟨[]⟩ "missing_tool" [] = "Tool 'missing_tool' not found" :=
  C7_unknown_tool_name_sentinel ⟨[]⟩ "missing_tool" [] (by simp)

theorem C10_witness :
    generate_response (fun _ => .ok (demoText "Paris")) demoExec "q" none
      (some []) true 2
      = .ok (firstText (demoText "Paris"),
          [.modelCall false (buildSystemContent none) [⟨"user", .text "q"⟩]]) ∧
    countToolBatches
      [.modelCall false (buildSystemContent none) [⟨"user", .text "q"⟩]] = 0 ∧
    countModelCalls false
      [.modelCall false (buildSystemContent none) [⟨"user", .text "q"⟩]] = 1 ∧
    countModelCalls true
      [.modelCall false (buildSystemContent none) [⟨"user", .text "q"⟩]] = 0 :=
  C10_empty_tools_list_single_call_path (fun _ => .ok (demoText "Paris")) demoExec
    "q" none 2 (demoText "Paris") rfl

/-- A concrete retrieval index for instantiating the search-tool theorem. -/
def demoStore : VectorStore :=
  ⟨fun _ _ _ => ⟨["Document content"], [⟨"Test Course", some 1⟩], none⟩,
   fun _ _ => some "http://example.com/lesson1"⟩

theorem C9_witness :
    ((CourseSearchTool.execute ⟨demoStore, [⟨"stale source", none⟩]⟩ "test query"
        none none).2).last_sources
      = ((demoStore.search "test query" none none).documents.zip
          (demoStore.search "test query" none none).metadata).map
            (fun dm => sourceFor demoStore dm.2) ∧
    (∀ meta : ChunkMeta, ∀ n : Int, meta.lesson_number = some n →
      sourceFor demoStore meta
        = ⟨meta.course_title ++ " - Lesson " ++ toString n,
           demoStore.get_lesson_link meta.course_title n⟩) ∧
    (∀ meta : ChunkMeta, meta.lesson_number = none →
      sourceFor demoStore meta = ⟨meta.course_title, none⟩) :=
  C9_search_overwrites_last_sources ⟨demoStore, [⟨"stale source", none⟩]⟩
    "test query" none none rfl (by simp [demoStore])
